import Mathlib

/-!
Shallow embedding of the NeonSnake game core (src/src/App.tsx) and of the
account/score storage shim (src/src/lib/storage.ts).

Modelling conventions:
* JS grid coordinates are integers; `Point` carries `Int` fields.
* `Math.floor(Math.random() * GRID_SIZE)` pairs are modelled by a finite
  tape of pre-sampled candidate cells (`randoms : List Point`); the
  unbounded `while (true)` rejection loop of `generateFood` walks the tape
  and returns `none` only when the tape is exhausted (an artifact of
  finitizing the randomness, never of the source logic).
* `moveSnake` returns `none` only for those modelling artifacts (empty
  snake, exhausted tape); every theorem below is about `some` results.
* The fire-and-forget `saveScore(currentUser.username, score)` call is
  modelled as the second component of the result: `some score` when a user
  is logged in (`hasUser = true`) and the game-over branch fires.
-/

namespace NeonSnake

/-- `type Point = { x: number; y: number }` from App.tsx. -/
structure Point where
  x : Int
  y : Int
deriving DecidableEq, Repr

/-- `const GRID_SIZE = 20`. -/
def GRID_SIZE : Int := 20

/-- `const INITIAL_SNAKE = [{x:10,y:10},{x:10,y:11},{x:10,y:12}]`. -/
def INITIAL_SNAKE : List Point := [⟨10, 10⟩, ⟨10, 11⟩, ⟨10, 12⟩]

/-- `const INITIAL_DIRECTION = { x: 0, y: -1 }`. -/
def INITIAL_DIRECTION : Point := ⟨0, -1⟩

/-- `const BASE_SPEED = 150`. -/
def BASE_SPEED : Nat := 150

/-- `const SPEED_INCREMENT = 2`. -/
def SPEED_INCREMENT : Nat := 2

/-- The occupancy test used throughout App.tsx:
`snake.some(segment => segment.x === p.x && segment.y === p.y)`. -/
def isOnSnake (snake : List Point) (p : Point) : Bool :=
  snake.any fun seg => seg.x == p.x && seg.y == p.y

/-- `generateFood` (App.tsx lines 55-66): rejection-sample a cell not on
`currentSnake`.  The `Math.random` draws are the entries of `randoms`;
the source's unbounded loop keeps drawing, here modelled by walking the
tape, `none` meaning the finite tape ran out. -/
def generateFood (randoms : List Point) (currentSnake : List Point) : Option Point :=
  match randoms with
  | [] => none
  | c :: rest => if isOnSnake currentSnake c then generateFood rest currentSnake else some c

/-- The authoritative game state of App.tsx: the React state variables
`snake`, `food`, `direction`, `score`, `speed`, `isPaused`, `isGameOver`. -/
structure GameState where
  snake : List Point
  food : Point
  direction : Point
  score : Nat
  speed : Nat
  isPaused : Bool
  isGameOver : Bool
deriving DecidableEq, Repr

/-- `newHead = { x: head.x + direction.x, y: head.y + direction.y }`. -/
def nextHead (st : GameState) (hd : Point) : Point :=
  ⟨hd.x + st.direction.x, hd.y + st.direction.y⟩

/-- The wall test of App.tsx lines 89-94:
`newHead.x < 0 || newHead.x >= GRID_SIZE || newHead.y < 0 || newHead.y >= GRID_SIZE`. -/
def outOfBounds (p : Point) : Bool :=
  p.x < 0 || p.x ≥ GRID_SIZE || p.y < 0 || p.y ≥ GRID_SIZE

/-- The four direction values ever assigned by the input handlers. -/
def isDir (d : Point) : Prop :=
  d = ⟨0, -1⟩ ∨ d = ⟨0, 1⟩ ∨ d = ⟨-1, 0⟩ ∨ d = ⟨1, 0⟩

/-- `moveSnake` (App.tsx lines 78-124), the tick-transition function.
Returns the updated state plus the score passed to `saveScore` when the
game-over branch fires and a user is logged in (`if (currentUser)`).
`none` only for the modelling artifacts: empty snake (JS would read
`prevSnake[0]` as `undefined`) or exhausted random tape. -/
def moveSnake (randoms : List Point) (hasUser : Bool) (st : GameState) :
    Option (GameState × Option Nat) :=
  if st.isPaused || st.isGameOver then some (st, none)
  else
    match st.snake with
    | [] => none
    | hd :: _ =>
      if outOfBounds (nextHead st hd) then
        some ({ st with isGameOver := true }, if hasUser then some st.score else none)
      else if isOnSnake st.snake (nextHead st hd) then
        some ({ st with isGameOver := true }, if hasUser then some st.score else none)
      else if (nextHead st hd).x == st.food.x && (nextHead st hd).y == st.food.y then
        match generateFood randoms (nextHead st hd :: st.snake) with
        | none => none
        | some nf =>
            some ({ st with snake := nextHead st hd :: st.snake,
                            score := st.score + 10,
                            speed := max 50 (st.speed - SPEED_INCREMENT),
                            food := nf }, none)
      else
        some ({ st with snake := (nextHead st hd :: st.snake).dropLast }, none)

/-- `resetGame` (App.tsx lines 68-76): initial snake/direction/score/speed,
not paused, not over, food sampled against `INITIAL_SNAKE`. -/
def resetGame (randoms : List Point) : Option GameState :=
  match generateFood randoms INITIAL_SNAKE with
  | none => none
  | some f =>
      some { snake := INITIAL_SNAKE, food := f, direction := INITIAL_DIRECTION,
             score := 0, speed := BASE_SPEED, isPaused := false, isGameOver := false }

/-- The four directional input signals (arrow keys / on-screen buttons). -/
inductive DirInput where
  | up
  | down
  | left
  | right
deriving DecidableEq, Repr

/-- One directional input applied to the committed direction, exactly the
guards of `handleKeyDown` (App.tsx lines 143-157) and of the
`ControlButton` handlers (lines 363-367): an `ArrowUp`/`ArrowDown` is
applied only when `direction.y === 0`, `ArrowLeft`/`ArrowRight` only when
`direction.x === 0`; a rejected input leaves the direction unchanged. -/
def applyInput (d : Point) (i : DirInput) : Point :=
  match i with
  | .up => if d.y == 0 then ⟨0, -1⟩ else d
  | .down => if d.y == 0 then ⟨0, 1⟩ else d
  | .left => if d.x == 0 then ⟨-1, 0⟩ else d
  | .right => if d.x == 0 then ⟨1, 0⟩ else d

/-- A burst of input events between two ticks.  Each handler reads the
direction committed by the previous event (the `keydown` listener is
re-registered with the freshly committed `direction` after every state
update), so the events fold over the direction. -/
def applyInputs (d : Point) (events : List DirInput) : Point :=
  events.foldl applyInput d

/-- One callback of the game-loop effect (App.tsx lines 128-132):
`if (time - lastUpdateTimeRef.current > speed) { moveSnake(); lastUpdateTimeRef.current = time; }`.
Result: how many times `moveSnake` was invoked, and the new `lastUpdateTimeRef`. -/
def loopStep (speed : Nat) (lastTick now : Int) : Nat × Int :=
  if now - lastTick > (speed : Int) then (1, now) else (0, lastTick)

/-- Whether a tick from state `st` takes the food branch: mirrors the
conditions on the path to `newHead.x === food.x && newHead.y === food.y`
in `moveSnake`. -/
def ateFood (st : GameState) : Bool :=
  !st.isPaused && !st.isGameOver &&
    match st.snake with
    | [] => false
    | hd :: _ =>
        !outOfBounds (nextHead st hd) && !isOnSnake st.snake (nextHead st hd) &&
          ((nextHead st hd).x == st.food.x && (nextHead st hd).y == st.food.y)

/-- Iterate `moveSnake` over a list of per-tick random tapes. -/
def runTicks (tapes : List (List Point)) (hasUser : Bool) (st : GameState) :
    Option GameState :=
  match tapes with
  | [] => some st
  | t :: ts =>
    match moveSnake t hasUser st with
    | none => none
    | some (st', _) => runTicks ts hasUser st'

/-- Iterate `moveSnake` and also count the ticks that took the food branch. -/
def runCount (tapes : List (List Point)) (hasUser : Bool) (st : GameState) :
    Option (GameState × Nat) :=
  match tapes with
  | [] => some (st, 0)
  | t :: ts =>
    match moveSnake t hasUser st with
    | none => none
    | some (st', _) =>
      match runCount ts hasUser st' with
      | none => none
      | some (fin, f) => some (fin, (if ateFood st then 1 else 0) + f)

/-- The score/speed relation maintained by `resetGame` and `moveSnake`. -/
def scoreSpeedInv (st : GameState) : Prop :=
  3 ≤ st.snake.length ∧
  st.score = 10 * (st.snake.length - 3) ∧
  st.speed = max 50 (BASE_SPEED - SPEED_INCREMENT * (st.snake.length - 3))

/-- Result shape of `loginUser` (storage.ts lines 31-51):
`{ success: boolean; token?: UserToken; error?: string }`; a `UserToken`
is just `{ username }`, modelled by the username string. -/
structure LoginResult where
  success : Bool
  token : Option String
  error : Option String
deriving DecidableEq, Repr

/-- Outcome of the store query
`supabase.from('snake_users').select('password').eq('username', u).single()`:
either the client throws (the `catch` path), or it resolves with optional
`data` (the stored password row) and optional `error`. -/
inductive QueryOutcome where
  | throws (msg : String)
  | result (data : Option String) (error : Option String)
deriving DecidableEq, Repr

/-- `loginUser` (storage.ts lines 31-51) as a function of the query
outcome: `if (error || !data) return 'User not found'`; then
`if (data.password !== password) return 'Incorrect password'`; else
success with `token = { username }`; a thrown exception yields
`err.message`. -/
def loginUser (username password : String) (q : QueryOutcome) : LoginResult :=
  match q with
  | .throws msg => { success := false, token := none, error := some msg }
  | .result data err =>
    match data, err with
    | some pw, none =>
        if pw ≠ password then
          { success := false, token := none, error := some "Incorrect password" }
        else
          { success := true, token := some username, error := none }
    | _, _ => { success := false, token := none, error := some "User not found" }

/-- `.single()` semantics over a table of `(username, password)` rows:
exactly one matching row yields its password as `data`; zero (or several)
matching rows yield a response-level error and no data. -/
def dbSingle (db : List (String × String)) (username : String) : QueryOutcome :=
  match db.filter (fun r => r.1 == username) with
  | [r] => .result (some r.2) none
  | _ => .result none (some "PGRST116")

end NeonSnake
namespace NeonSnake

theorem generateFood_sound (randoms currentSnake : List Point) (q : Point)
    (h : generateFood randoms currentSnake = some q) :
    isOnSnake currentSnake q = false ∧ q ∈ randoms := by
  induction randoms with
  | nil => simp [generateFood] at h
  | cons c rest ih =>
    rw [generateFood] at h
    by_cases hc : isOnSnake currentSnake c
    · rw [if_pos hc] at h
      rcases ih h with ⟨h1, h2⟩
      exact ⟨h1, List.mem_cons_of_mem _ h2⟩
    · rw [if_neg hc] at h
      cases h
      exact ⟨Bool.eq_false_iff.mpr hc, List.mem_cons_self _ _⟩

theorem generateFood_isSome (randoms currentSnake : List Point)
    (h : ∃ p ∈ randoms, isOnSnake currentSnake p = false) :
    ∃ q, generateFood randoms currentSnake = some q := by
  induction randoms with
  | nil => simp at h
  | cons c rest ih =>
    rw [generateFood]
    by_cases hc : isOnSnake currentSnake c
    · rw [if_pos hc]
      apply ih
      rcases h with ⟨p, hmem, hp⟩
      rcases List.mem_cons.mp hmem with rfl | hmem'
      · rw [hp] at hc; exact absurd hc (by simp)
      · exact ⟨p, hmem', hp⟩
    · rw [if_neg hc]
      exact ⟨c, rfl⟩

theorem moveSnake_frozen (randoms : List Point) (u : Bool) (st : GameState)
    (h : (st.isPaused || st.isGameOver) = true) :
    moveSnake randoms u st = some (st, none) := by
  unfold moveSnake
  rw [if_pos h]

theorem moveSnake_wall (randoms : List Point) (u : Bool) (st : GameState)
    (hd : Point) (rest : List Point)
    (hp : st.isPaused = false) (hg : st.isGameOver = false)
    (hs : st.snake = hd :: rest)
    (hw : outOfBounds (nextHead st hd) = true) :
    moveSnake randoms u st =
      some ({ st with isGameOver := true }, if u then some st.score else none) := by
  simp only [moveSnake, hp, hg, hs, hw, Bool.or_self, Bool.false_eq_true, if_false, if_true]

theorem moveSnake_self (randoms : List Point) (u : Bool) (st : GameState)
    (hd : Point) (rest : List Point)
    (hp : st.isPaused = false) (hg : st.isGameOver = false)
    (hs : st.snake = hd :: rest)
    (hw : outOfBounds (nextHead st hd) = false)
    (hc : isOnSnake st.snake (nextHead st hd) = true) :
    moveSnake randoms u st =
      some ({ st with isGameOver := true }, if u then some st.score else none) := by
  simp only [moveSnake, hp, hg, hs, hw, hc, Bool.or_self, Bool.false_eq_true, if_false, if_true]
  rw [hs] at hc
  simp only [hc, if_true]

theorem moveSnake_food (randoms : List Point) (u : Bool) (st : GameState)
    (hd : Point) (rest : List Point) (nf : Point)
    (hp : st.isPaused = false) (hg : st.isGameOver = false)
    (hs : st.snake = hd :: rest)
    (hw : outOfBounds (nextHead st hd) = false)
    (hc : isOnSnake st.snake (nextHead st hd) = false)
    (hf : ((nextHead st hd).x == st.food.x && (nextHead st hd).y == st.food.y) = true)
    (hgen : generateFood randoms (nextHead st hd :: st.snake) = some nf) :
    moveSnake randoms u st =
      some ({ st with snake := nextHead st hd :: st.snake,
                      score := st.score + 10,
                      speed := max 50 (st.speed - SPEED_INCREMENT),
                      food := nf }, none) := by
  rw [hs] at hc hgen
  simp only [moveSnake, hp, hg, hs, hw, hc, hf, hgen, Bool.or_self, Bool.false_eq_true,
    if_false, if_true]

theorem moveSnake_nofood (randoms : List Point) (u : Bool) (st : GameState)
    (hd : Point) (rest : List Point)
    (hp : st.isPaused = false) (hg : st.isGameOver = false)
    (hs : st.snake = hd :: rest)
    (hw : outOfBounds (nextHead st hd) = false)
    (hc : isOnSnake st.snake (nextHead st hd) = false)
    (hf : ((nextHead st hd).x == st.food.x && (nextHead st hd).y == st.food.y) = false) :
    moveSnake randoms u st =
      some ({ st with snake := (nextHead st hd :: st.snake).dropLast }, none) := by
  rw [hs] at hc
  simp only [moveSnake, hp, hg, hs, hw, hc, hf, Bool.or_self, Bool.false_eq_true,
    if_false, if_true]

end NeonSnake
namespace NeonSnake

theorem moveSnake_nil (randoms : List Point) (u : Bool) (st : GameState)
    (hp : st.isPaused = false) (hg : st.isGameOver = false) (hs : st.snake = []) :
    moveSnake randoms u st = none := by
  simp only [moveSnake, hp, hg, hs, Bool.or_self, Bool.false_eq_true, if_false]

theorem moveSnake_food_none (randoms : List Point) (u : Bool) (st : GameState)
    (hd : Point) (rest : List Point)
    (hp : st.isPaused = false) (hg : st.isGameOver = false)
    (hs : st.snake = hd :: rest)
    (hw : outOfBounds (nextHead st hd) = false)
    (hc : isOnSnake st.snake (nextHead st hd) = false)
    (hf : ((nextHead st hd).x == st.food.x && (nextHead st hd).y == st.food.y) = true)
    (hgen : generateFood randoms (nextHead st hd :: st.snake) = none) :
    moveSnake randoms u st = none := by
  rw [hs] at hc hgen
  simp only [moveSnake, hp, hg, hs, hw, hc, hf, hgen, Bool.or_self, Bool.false_eq_true,
    if_false, if_true]

theorem moveSnake_length (t : List Point) (u : Bool) (st st' : GameState) (c : Option Nat)
    (h : moveSnake t u st = some (st', c)) :
    st'.snake.length = st.snake.length + (if ateFood st then 1 else 0) := by
  by_cases hpg : (st.isPaused || st.isGameOver) = true
  · rw [moveSnake_frozen t u st hpg] at h
    cases h
    have ha : ateFood st = false := by
      rcases Bool.or_eq_true _ _ |>.mp hpg with h1 | h1 <;> simp [ateFood, h1]
    simp [ha]
  · rcases Bool.or_eq_false_iff.mp (Bool.not_eq_true _ |>.mp hpg) with ⟨hp, hg⟩
    cases hsn : st.snake with
    | nil => rw [moveSnake_nil t u st hp hg hsn] at h; cases h
    | cons hd rest =>
      by_cases hw : outOfBounds (nextHead st hd) = true
      · rw [moveSnake_wall t u st hd rest hp hg hsn hw] at h
        cases h
        have ha : ateFood st = false := by simp [ateFood, hsn, hw]
        simp [ha, hsn]
      · rw [Bool.not_eq_true] at hw
        by_cases hc : isOnSnake st.snake (nextHead st hd) = true
        · rw [moveSnake_self t u st hd rest hp hg hsn hw hc] at h
          cases h
          have ha : ateFood st = false := by
            rw [hsn] at hc
            simp [ateFood, hsn, hc]
          simp [ha, hsn]
        · rw [Bool.not_eq_true] at hc
          by_cases hf : ((nextHead st hd).x == st.food.x &&
              (nextHead st hd).y == st.food.y) = true
          · cases hgen : generateFood t (nextHead st hd :: st.snake) with
            | none =>
              rw [moveSnake_food_none t u st hd rest hp hg hsn hw hc hf hgen] at h
              cases h
            | some nf =>
              rw [moveSnake_food t u st hd rest nf hp hg hsn hw hc hf hgen] at h
              cases h
              have ha : ateFood st = true := by
                rw [hsn] at hc
                simp [ateFood, hsn, hw, hc, hf, hp, hg]
              simp [ha, hsn]
          · rw [Bool.not_eq_true] at hf
            rw [moveSnake_nofood t u st hd rest hp hg hsn hw hc hf] at h
            cases h
            have ha : ateFood st = false := by
              simp [ateFood, hsn, hf]
            simp [ha, hsn, List.length_dropLast]

end NeonSnake
namespace NeonSnake

theorem runCount_length_aux (tapes : List (List Point)) (u : Bool) :
    ∀ st st' F, runCount tapes u st = some (st', F) →
      st'.snake.length = st.snake.length + F := by
  induction tapes with
  | nil =>
    intro st st' F h
    rw [runCount] at h
    cases h
    rfl
  | cons t ts ih =>
    intro st st' F h
    cases hm : moveSnake t u st with
    | none => simp only [runCount, hm] at h; cases h
    | some r =>
      obtain ⟨st1, c1⟩ := r
      simp only [runCount, hm] at h
      cases hr : runCount ts u st1 with
      | none => simp only [hr] at h; cases h
      | some p =>
        obtain ⟨fin, f⟩ := p
        simp only [hr, Option.some.injEq, Prod.mk.injEq] at h
        obtain ⟨rfl, rfl⟩ := h
        have h1 := moveSnake_length t u st st1 c1 hm
        have h2 := ih st1 fin f hr
        omega

theorem scoreSpeedInv_reset (randoms : List Point) (st : GameState)
    (h : resetGame randoms = some st) : scoreSpeedInv st := by
  rw [resetGame] at h
  cases hgen : generateFood randoms INITIAL_SNAKE with
  | none => rw [hgen] at h; cases h
  | some f =>
    rw [hgen] at h
    cases h
    refine ⟨?_, ?_, ?_⟩ <;>
      simp [scoreSpeedInv, INITIAL_SNAKE, BASE_SPEED, SPEED_INCREMENT]

theorem scoreSpeedInv_step (t : List Point) (u : Bool) (st st' : GameState) (c : Option Nat)
    (h : moveSnake t u st = some (st', c)) (hinv : scoreSpeedInv st) : scoreSpeedInv st' := by
  obtain ⟨hlen, hscore, hspeed⟩ := hinv
  unfold BASE_SPEED SPEED_INCREMENT at hspeed
  by_cases hpg : (st.isPaused || st.isGameOver) = true
  · rw [moveSnake_frozen t u st hpg] at h
    cases h
    exact ⟨hlen, hscore, hspeed⟩
  · rcases Bool.or_eq_false_iff.mp (Bool.not_eq_true _ |>.mp hpg) with ⟨hp, hg⟩
    cases hsn : st.snake with
    | nil => rw [moveSnake_nil t u st hp hg hsn] at h; cases h
    | cons hd rest =>
      by_cases hw : outOfBounds (nextHead st hd) = true
      · rw [moveSnake_wall t u st hd rest hp hg hsn hw] at h
        cases h
        exact ⟨hlen, hscore, hspeed⟩
      · rw [Bool.not_eq_true] at hw
        by_cases hc : isOnSnake st.snake (nextHead st hd) = true
        · rw [moveSnake_self t u st hd rest hp hg hsn hw hc] at h
          cases h
          exact ⟨hlen, hscore, hspeed⟩
        · rw [Bool.not_eq_true] at hc
          by_cases hf : ((nextHead st hd).x == st.food.x &&
              (nextHead st hd).y == st.food.y) = true
          · cases hgen : generateFood t (nextHead st hd :: st.snake) with
            | none =>
              rw [moveSnake_food_none t u st hd rest hp hg hsn hw hc hf hgen] at h
              cases h
            | some nf =>
              rw [moveSnake_food t u st hd rest nf hp hg hsn hw hc hf hgen] at h
              cases h
              refine ⟨?_, ?_, ?_⟩ <;>
                simp only [scoreSpeedInv, List.length_cons, BASE_SPEED, SPEED_INCREMENT] <;>
                omega
          · rw [Bool.not_eq_true] at hf
            rw [moveSnake_nofood t u st hd rest hp hg hsn hw hc hf] at h
            cases h
            have hL : ((nextHead st hd :: st.snake).dropLast).length = st.snake.length := by
              simp [List.length_dropLast]
            refine ⟨?_, ?_, ?_⟩ <;>
              simp only [scoreSpeedInv, BASE_SPEED, SPEED_INCREMENT, hL] <;>
              omega

end NeonSnake
namespace NeonSnake

theorem runTicks_inv (tapes : List (List Point)) (u : Bool) :
    ∀ st st', runTicks tapes u st = some st' → scoreSpeedInv st → scoreSpeedInv st' := by
  induction tapes with
  | nil => intro st st' h hi; rw [runTicks] at h; cases h; exact hi
  | cons t ts ih =>
    intro st st' h hi
    cases hm : moveSnake t u st with
    | none => simp only [runTicks, hm] at h; cases h
    | some r =>
      obtain ⟨st1, c1⟩ := r
      simp only [runTicks, hm] at h
      exact ih st1 st' h (scoreSpeedInv_step t u st st1 c1 hm hi)

theorem runTicks_frozen (u : Bool) (st : GameState)
    (h : (st.isPaused || st.isGameOver) = true) :
    ∀ tapes, runTicks tapes u st = some st := by
  intro tapes
  induction tapes with
  | nil => rfl
  | cons t ts ih =>
    simp only [runTicks, moveSnake_frozen t u st h]
    exact ih

theorem exists_free_cell (snake : List Point)
    (hlen : snake.length < 400) :
    ∃ c : Point, outOfBounds c = false ∧ isOnSnake snake c = false := by
  by_contra hcon
  push_neg at hcon
  have hsub : (Finset.Icc (0:ℤ) 19 ×ˢ Finset.Icc (0:ℤ) 19) ⊆
      (snake.map fun p => (p.x, p.y)).toFinset := by
    intro ab hab
    obtain ⟨a, b⟩ := ab
    rw [Finset.mem_product, Finset.mem_Icc, Finset.mem_Icc] at hab
    have hb : outOfBounds ⟨a, b⟩ = false := by
      simp only [outOfBounds, GRID_SIZE]
      simp only [Bool.or_eq_false_iff, decide_eq_false_iff_not, not_lt, not_le]
      omega
    have hsn := hcon ⟨a, b⟩ hb
    simp only [ne_eq, Bool.not_eq_false] at hsn
    rcases List.any_eq_true.mp hsn with ⟨seg, hseg, hbeq⟩
    rw [Bool.and_eq_true, beq_iff_eq, beq_iff_eq] at hbeq
    rw [List.mem_toFinset, List.mem_map]
    exact ⟨seg, hseg, by rw [hbeq.1, hbeq.2]⟩
  have h1 : (400:ℕ) ≤ (snake.map fun p => (p.x, p.y)).toFinset.card := by
    calc (400:ℕ) = (Finset.Icc (0:ℤ) 19 ×ˢ Finset.Icc (0:ℤ) 19).card := by
          rw [Finset.card_product, Int.card_Icc]
          rfl
      _ ≤ _ := Finset.card_le_card hsub
  have h2 : (snake.map fun p => (p.x, p.y)).toFinset.card ≤ snake.length := by
    calc (snake.map fun p => (p.x, p.y)).toFinset.card
        ≤ (snake.map fun p => (p.x, p.y)).length := (snake.map fun p => (p.x, p.y)).toFinset_card_le
      _ = snake.length := List.length_map _ _
  omega

theorem outOfBounds_step_iff (st : GameState) (hd : Point)
    (hhd : outOfBounds hd = false) (hdir : isDir st.direction) :
    outOfBounds (nextHead st hd) = true ↔
      ((nextHead st hd).x = -1 ∨ (nextHead st hd).x = 20 ∨
       (nextHead st hd).y = -1 ∨ (nextHead st hd).y = 20) := by
  simp only [outOfBounds, GRID_SIZE, Bool.or_eq_false_iff, decide_eq_false_iff_not,
    not_lt, not_le] at hhd
  simp only [outOfBounds, GRID_SIZE, nextHead, Bool.or_eq_true, decide_eq_true_eq]
  rcases hdir with h | h | h | h <;> rw [h] <;>
    simp only [nextHead] <;> constructor <;> intro hx <;> omega

theorem filter_eq_single (db : List (String × String)) (username pw : String)
    (hnd : (db.map Prod.fst).Nodup) (hmem : (username, pw) ∈ db) :
    db.filter (fun r => r.1 == username) = [(username, pw)] := by
  induction db with
  | nil => cases hmem
  | cons r rs ih =>
    rw [List.map_cons, List.nodup_cons] at hnd
    obtain ⟨hr, hnd'⟩ := hnd
    rcases List.mem_cons.mp hmem with rfl | hmem'
    · rw [List.filter_cons, if_pos (by simp)]
      have hnil : rs.filter (fun r => r.1 == username) = [] := by
        rw [List.filter_eq_nil_iff]
        intro a ha hcontra
        rw [beq_iff_eq] at hcontra
        exact hr (hcontra ▸ List.mem_map.mpr ⟨a, ha, rfl⟩)
      rw [hnil]
    · have hkey : username ∈ rs.map Prod.fst :=
        List.mem_map.mpr ⟨(username, pw), hmem', rfl⟩
      have hne : (r.1 == username) = false := by
        rw [beq_eq_false_iff_ne]
        intro h
        exact hr (h ▸ hkey)
      rw [List.filter_cons, hne]
      simp only [Bool.false_eq_true, if_false]
      exact ih hnd' hmem'

end NeonSnake
namespace NeonSnake

/-- C1: when the new head equals the food cell and no wall or self collision
occurs, one `moveSnake` tick adds 10 to the score, sets the speed to
`max 50 (speed - 2)`, prepends the new head without dropping the tail, and
places the resampled food on a cell free of the post-growth snake. -/
theorem moveSnake_eats_food (randoms : List Point) (u : Bool) (st : GameState)
    (hd : Point) (rest : List Point) (nf : Point)
    (hp : st.isPaused = false) (hg : st.isGameOver = false)
    (hs : st.snake = hd :: rest)
    (hw : outOfBounds (nextHead st hd) = false)
    (hc : isOnSnake st.snake (nextHead st hd) = false)
    (hf : nextHead st hd = st.food)
    (hgen : generateFood randoms (nextHead st hd :: st.snake) = some nf) :
    moveSnake randoms u st =
      some ({ st with snake := nextHead st hd :: st.snake,
                      score := st.score + 10,
                      speed := max 50 (st.speed - 2),
                      food := nf }, none) ∧
    isOnSnake (nextHead st hd :: st.snake) nf = false := by
  have hfb : ((nextHead st hd).x == st.food.x && (nextHead st hd).y == st.food.y) = true := by
    rw [← hf]; simp
  exact ⟨moveSnake_food randoms u st hd rest nf hp hg hs hw hc hfb hgen,
    (generateFood_sound randoms _ nf hgen).1⟩

/-- C1 witness: the spec scenario, snake `[(10,10),(10,11),(10,12)]`,
direction `(0,-1)`, food `(10,9)`: one tick grows the snake to
`[(10,9),(10,10),(10,11),(10,12)]`, score 0→10, speed 150→148. -/
theorem moveSnake_eats_food_witness :
    moveSnake [⟨5, 5⟩] true
        ⟨[⟨10, 10⟩, ⟨10, 11⟩, ⟨10, 12⟩], ⟨10, 9⟩, ⟨0, -1⟩, 0, 150, false, false⟩ =
      some (⟨[⟨10, 9⟩, ⟨10, 10⟩, ⟨10, 11⟩, ⟨10, 12⟩], ⟨5, 5⟩, ⟨0, -1⟩, 10, 148, false, false⟩,
        none) := by
  have h := (moveSnake_eats_food [⟨5, 5⟩] true
      ⟨[⟨10, 10⟩, ⟨10, 11⟩, ⟨10, 12⟩], ⟨10, 9⟩, ⟨0, -1⟩, 0, 150, false, false⟩
      ⟨10, 10⟩ [⟨10, 11⟩, ⟨10, 12⟩] ⟨5, 5⟩ rfl rfl rfl (by decide) (by decide) (by decide)
      (by decide)).1
  exact h.trans (by decide)

/-- C2 counterexample: with committed direction up `(0,-1)`, the input burst
Left-then-Down inside one tick period commits `(0,1)` — the exact opposite
of the direction used at the previous tick.  Each event is filtered against
the direction committed by the previous event, not buffered. -/
theorem direction_double_tap_cex :
    applyInputs ⟨0, -1⟩ [DirInput.left, DirInput.down] = ⟨0, 1⟩ ∧
    (⟨0, 1⟩ : Point) = ⟨-(0 : Int), -(-1 : Int)⟩ := by decide

/-- C2 amended: a single directional input is judged against the committed
direction at the moment it arrives and never yields the exact opposite of
that direction; bursts of two inputs can still compose to a net reversal. -/
theorem applyInput_no_reversal_thm (d : Point) (i : DirInput) :
    applyInput d i ≠ (⟨-d.x, -d.y⟩ : Point) := by
  obtain ⟨dx, dy⟩ := d
  cases i <;> simp only [applyInput] <;> split <;> rename_i hguard <;>
    simp only [beq_iff_eq] at hguard <;> intro hEq <;>
    simp only [Point.mk.injEq] at hEq <;> omega

/-- C2 witness: with committed direction up `(0,-1)`, a single Down input
does not produce the opposite direction. -/
theorem applyInput_no_reversal_thm_witness :
    applyInput ⟨0, -1⟩ DirInput.down ≠ (⟨-(0 : Int), -(-1 : Int)⟩ : Point) :=
  applyInput_no_reversal_thm ⟨0, -1⟩ DirInput.down

/-- C3: in a running state, a new head landing on any cell of the pre-move
snake body (tail included) sets `isGameOver` and leaves snake and score at
their pre-collision values. -/
theorem moveSnake_self_collision (randoms : List Point) (u : Bool) (st : GameState)
    (hd : Point) (rest : List Point)
    (hp : st.isPaused = false) (hg : st.isGameOver = false)
    (hs : st.snake = hd :: rest)
    (hc : isOnSnake st.snake (nextHead st hd) = true) :
    moveSnake randoms u st =
      some ({ st with isGameOver := true }, if u then some st.score else none) ∧
    ({ st with isGameOver := true } : GameState).snake = st.snake ∧
    ({ st with isGameOver := true } : GameState).score = st.score := by
  refine ⟨?_, rfl, rfl⟩
  by_cases hw : outOfBounds (nextHead st hd) = true
  · exact moveSnake_wall randoms u st hd rest hp hg hs hw
  · exact moveSnake_self randoms u st hd rest hp hg hs (Bool.not_eq_true _ |>.mp hw) hc

/-- C3 witness: a length-4 snake looping onto its own tail cell ends the
game with snake and score unchanged. -/
theorem moveSnake_self_collision_witness :
    moveSnake [] true ⟨[⟨5, 5⟩, ⟨6, 5⟩, ⟨6, 6⟩, ⟨5, 6⟩], ⟨0, 0⟩, ⟨0, 1⟩, 30, 144, false, false⟩ =
      some (⟨[⟨5, 5⟩, ⟨6, 5⟩, ⟨6, 6⟩, ⟨5, 6⟩], ⟨0, 0⟩, ⟨0, 1⟩, 30, 144, false, true⟩,
        some 30) := by
  have h := (moveSnake_self_collision [] true
      ⟨[⟨5, 5⟩, ⟨6, 5⟩, ⟨6, 6⟩, ⟨5, 6⟩], ⟨0, 0⟩, ⟨0, 1⟩, 30, 144, false, false⟩
      ⟨5, 5⟩ [⟨6, 5⟩, ⟨6, 6⟩, ⟨5, 6⟩] rfl rfl rfl (by decide)).1
  exact h.trans (by decide)

/-- C4 counterexample: in a running state with no logged-in user, a wall hit
sets `isGameOver` but triggers no score submission (`saveScore` is guarded
by `if (currentUser)`), contradicting the claim's unconditional one-shot
submission. -/
theorem wall_collision_no_submission_cex :
    moveSnake [] false ⟨[⟨10, 0⟩, ⟨10, 1⟩, ⟨10, 2⟩], ⟨5, 5⟩, ⟨0, -1⟩, 40, 142, false, false⟩ =
      some (⟨[⟨10, 0⟩, ⟨10, 1⟩, ⟨10, 2⟩], ⟨5, 5⟩, ⟨0, -1⟩, 40, 142, false, true⟩, none) := by
  decide

/-- C4 amended: an out-of-bounds new head deterministically sets
`isGameOver` with the state otherwise frozen, submitting the current score
exactly when a user is logged in; an in-bounds, collision-free head never
sets game over; and from an in-bounds head with a unit direction,
out-of-bounds is exactly a coordinate equal to -1 or to `GRID_SIZE`. -/
theorem moveSnake_wall_collision (randoms : List Point) (u : Bool) (st : GameState)
    (hd : Point) (rest : List Point)
    (hp : st.isPaused = false) (hg : st.isGameOver = false) (hs : st.snake = hd :: rest) :
    (outOfBounds (nextHead st hd) = true →
      moveSnake randoms u st =
        some ({ st with isGameOver := true }, if u then some st.score else none)) ∧
    (outOfBounds (nextHead st hd) = false → isOnSnake st.snake (nextHead st hd) = false →
      ∀ st' c, moveSnake randoms u st = some (st', c) → st'.isGameOver = false) ∧
    (outOfBounds hd = false → isDir st.direction →
      (outOfBounds (nextHead st hd) = true ↔
        ((nextHead st hd).x = -1 ∨ (nextHead st hd).x = 20 ∨
         (nextHead st hd).y = -1 ∨ (nextHead st hd).y = 20))) := by
  refine ⟨fun hw => moveSnake_wall randoms u st hd rest hp hg hs hw, ?_,
    fun hh hdir => outOfBounds_step_iff st hd hh hdir⟩
  intro hw hc st' c hmove
  by_cases hf : ((nextHead st hd).x == st.food.x && (nextHead st hd).y == st.food.y) = true
  · cases hgen : generateFood randoms (nextHead st hd :: st.snake) with
    | none =>
      rw [moveSnake_food_none randoms u st hd rest hp hg hs hw hc hf hgen] at hmove
      cases hmove
    | some nf =>
      rw [moveSnake_food randoms u st hd rest nf hp hg hs hw hc hf hgen] at hmove
      cases hmove
      exact hg
  · rw [Bool.not_eq_true] at hf
    rw [moveSnake_nofood randoms u st hd rest hp hg hs hw hc hf] at hmove
    cases hmove
    exact hg

/-- C4 witness: with a user logged in, driving the head to `y = -1` sets
game over, freezes the state, and submits the current score 40. -/
theorem moveSnake_wall_collision_witness :
    moveSnake [] true ⟨[⟨10, 0⟩, ⟨10, 1⟩, ⟨10, 2⟩], ⟨5, 5⟩, ⟨0, -1⟩, 40, 142, false, false⟩ =
      some (⟨[⟨10, 0⟩, ⟨10, 1⟩, ⟨10, 2⟩], ⟨5, 5⟩, ⟨0, -1⟩, 40, 142, false, true⟩, some 40) := by
  have h := (moveSnake_wall_collision [] true
      ⟨[⟨10, 0⟩, ⟨10, 1⟩, ⟨10, 2⟩], ⟨5, 5⟩, ⟨0, -1⟩, 40, 142, false, false⟩
      ⟨10, 0⟩ [⟨10, 1⟩, ⟨10, 2⟩] rfl rfl rfl).1 (by decide)
  exact h.trans (by decide)

/-- C5 counterexample: at `now - lastTickTime = speed` exactly (150 ms
elapsed, speed 150), the loop condition `time - last > speed` is false: no
tick runs and `lastTickTime` stays 0, contradicting the claimed `>=`
threshold. -/
theorem loopStep_boundary_cex :
    (150 : Int) - 0 ≥ ((150 : Nat) : Int) ∧ loopStep 150 0 150 = (0, 0) := by decide

/-- C5 amended: a callback ticks exactly once and sets `lastTickTime = now`
when `now - lastTickTime > speed` (strictly), does nothing otherwise, and
never ticks more than once per callback. -/
theorem loopStep_spec (speed : Nat) (lastTick now : Int) :
    (loopStep speed lastTick now).1 ≤ 1 ∧
    (now - lastTick > (speed : Int) → loopStep speed lastTick now = (1, now)) ∧
    (¬now - lastTick > (speed : Int) → loopStep speed lastTick now = (0, lastTick)) := by
  unfold loopStep
  by_cases h : now - lastTick > (speed : Int)
  · rw [if_pos h]; exact ⟨by norm_num, fun _ => rfl, fun hc => absurd h hc⟩
  · rw [if_neg h]; exact ⟨by norm_num, fun hc => absurd hc h, fun _ => rfl⟩

/-- C5 witness: 151 ms elapsed with speed 150 ticks once and updates the
accumulator. -/
theorem loopStep_spec_witness : loopStep 150 0 151 = (1, 151) :=
  (loopStep_spec 150 0 151).2.1 (by decide)

/-- C6: over any run, the final snake length is the initial length plus the
number of food-consuming ticks; and a collision-free tick that does not eat
drops exactly the last segment, leaving the length unchanged. -/
theorem snake_growth_conservation :
    (∀ tapes u st st' F, runCount tapes u st = some (st', F) →
        st'.snake.length = st.snake.length + F) ∧
    (∀ randoms u st hd rest st' c,
        st.isPaused = false → st.isGameOver = false →
        st.snake = hd :: rest →
        outOfBounds (nextHead st hd) = false →
        isOnSnake st.snake (nextHead st hd) = false →
        ((nextHead st hd).x == st.food.x && (nextHead st hd).y == st.food.y) = false →
        moveSnake randoms u st = some (st', c) →
        st'.snake = nextHead st hd :: st.snake.dropLast ∧
        st'.snake.length = st.snake.length) := by
  constructor
  · exact fun tapes u st st' F h => runCount_length_aux tapes u st st' F h
  · intro randoms u st hd rest st' c hp hg hs hw hc hf hmove
    rw [moveSnake_nofood randoms u st hd rest hp hg hs hw hc hf] at hmove
    cases hmove
    constructor
    · rw [hs]
      simp [List.dropLast_cons₂]
    · simp [List.length_dropLast]

/-- C6 witness: from the initial snake, one food tick then one plain tick
gives F = 1 and final length 4 = 3 + 1. -/
theorem snake_growth_conservation_witness :
    runCount [[⟨5, 5⟩], []] true
        ⟨[⟨10, 10⟩, ⟨10, 11⟩, ⟨10, 12⟩], ⟨10, 9⟩, ⟨0, -1⟩, 0, 150, false, false⟩ =
      some (⟨[⟨10, 8⟩, ⟨10, 9⟩, ⟨10, 10⟩, ⟨10, 11⟩], ⟨5, 5⟩, ⟨0, -1⟩, 10, 148, false, false⟩,
        1) ∧
    (4 : Nat) = 3 + 1 := by
  refine ⟨by decide, ?_⟩
  have h := snake_growth_conservation.1 [[⟨5, 5⟩], []] true
      ⟨[⟨10, 10⟩, ⟨10, 11⟩, ⟨10, 12⟩], ⟨10, 9⟩, ⟨0, -1⟩, 0, 150, false, false⟩
      ⟨[⟨10, 8⟩, ⟨10, 9⟩, ⟨10, 10⟩, ⟨10, 11⟩], ⟨5, 5⟩, ⟨0, -1⟩, 10, 148, false, false⟩ 1
      (by decide)
  exact h

end NeonSnake
namespace NeonSnake

/-- C7: a snake with fewer than 400 segments always leaves a free in-grid
cell; the rejection loop of `generateFood` succeeds as soon as the random
tape reaches a free cell, and whatever it returns is in the grid (all
candidates are) and never on the given snake. -/
theorem generateFood_terminates_free (snake : List Point) (hlen : snake.length < 400) :
    (∃ c : Point, outOfBounds c = false ∧ isOnSnake snake c = false) ∧
    (∀ randoms, (∃ p ∈ randoms, isOnSnake snake p = false) →
      ∃ q, generateFood randoms snake = some q ∧ isOnSnake snake q = false) ∧
    (∀ randoms q, (∀ p ∈ randoms, outOfBounds p = false) →
      generateFood randoms snake = some q →
      outOfBounds q = false ∧ isOnSnake snake q = false) := by
  refine ⟨exists_free_cell snake hlen, ?_, ?_⟩
  · intro randoms hex
    obtain ⟨q, hq⟩ := generateFood_isSome randoms snake hex
    exact ⟨q, hq, (generateFood_sound randoms snake q hq).1⟩
  · intro randoms q hall hq
    obtain ⟨h1, h2⟩ := generateFood_sound randoms snake q hq
    exact ⟨hall q h2, h1⟩

/-- C7 witness: on the snake `[(0,0)]`, a tape whose head is occupied and
whose second cell is free makes `generateFood` terminate with the free
cell. -/
theorem generateFood_terminates_free_witness :
    ∃ q, generateFood [⟨0, 0⟩, ⟨7, 3⟩] [⟨0, 0⟩] = some q ∧
      isOnSnake [⟨0, 0⟩] q = false :=
  (generateFood_terminates_free [⟨0, 0⟩] (by decide)).2.1 [⟨0, 0⟩, ⟨7, 3⟩]
    ⟨⟨7, 3⟩, by decide, by decide⟩

/-- C8: a paused or game-over state is left bit-for-bit unchanged by a tick
(`moveSnake` returns early), and hence by any number of ticks, until an
explicit reset. -/
theorem moveSnake_frozen_state (randoms : List Point) (u : Bool) (st : GameState)
    (h : st.isPaused = true ∨ st.isGameOver = true) :
    moveSnake randoms u st = some (st, none) ∧
    ∀ tapes, runTicks tapes u st = some st := by
  have hb : (st.isPaused || st.isGameOver) = true := by
    rcases h with h | h <;> simp [h]
  exact ⟨moveSnake_frozen randoms u st hb, runTicks_frozen u st hb⟩

/-- C8 witness: a concrete game-over state survives a tick unchanged. -/
theorem moveSnake_frozen_state_witness :
    moveSnake [] true ⟨[⟨10, 10⟩, ⟨10, 11⟩, ⟨10, 12⟩], ⟨5, 5⟩, ⟨0, -1⟩, 0, 150, false, true⟩ =
      some (⟨[⟨10, 10⟩, ⟨10, 11⟩, ⟨10, 12⟩], ⟨5, 5⟩, ⟨0, -1⟩, 0, 150, false, true⟩, none) :=
  (moveSnake_frozen_state [] true _ (Or.inr rfl)).1

/-- C9 counterexample: a response-level store failure (error set, no data,
nothing thrown) is reported as the NotFound outcome `'User not found'`,
not as a distinct OtherError outcome. -/
theorem loginUser_store_error_cex :
    loginUser "alice" "pw" (QueryOutcome.result none (some "network error")) =
      { success := false, token := none, error := some "User not found" } := rfl

/-- C9 amended: against a store with unique usernames, `loginUser` succeeds
with token = username exactly on a matching row; a present row with a
different secret yields `'Incorrect password'`; a missing row yields
`'User not found'`; but any response-level error or missing data —
including store failures — also yields `'User not found'`, and only a
thrown exception surfaces its own message. -/
theorem loginUser_spec (username password : String) (db : List (String × String))
    (hnd : (db.map Prod.fst).Nodup) :
    (∀ pw, (username, pw) ∈ db → pw = password →
        loginUser username password (dbSingle db username) =
          { success := true, token := some username, error := none }) ∧
    (∀ pw, (username, pw) ∈ db → pw ≠ password →
        loginUser username password (dbSingle db username) =
          { success := false, token := none, error := some "Incorrect password" }) ∧
    ((∀ pw, (username, pw) ∉ db) →
        loginUser username password (dbSingle db username) =
          { success := false, token := none, error := some "User not found" }) ∧
    (∀ msg, loginUser username password (.throws msg) =
        { success := false, token := none, error := some msg }) ∧
    (∀ d e, e.isSome = true ∨ d = none →
        loginUser username password (.result d e) =
          { success := false, token := none, error := some "User not found" }) := by
  refine ⟨?_, ?_, ?_, fun msg => rfl, ?_⟩
  · intro pw hmem hpw
    have hq : dbSingle db username = QueryOutcome.result (some pw) none := by
      unfold dbSingle
      rw [filter_eq_single db username pw hnd hmem]
    rw [hq]
    simp only [loginUser]
    rw [if_neg (not_not_intro hpw)]
  · intro pw hmem hpw
    have hq : dbSingle db username = QueryOutcome.result (some pw) none := by
      unfold dbSingle
      rw [filter_eq_single db username pw hnd hmem]
    rw [hq]
    simp only [loginUser]
    rw [if_pos hpw]
  · intro hnone
    have hq : dbSingle db username = QueryOutcome.result none (some "PGRST116") := by
      unfold dbSingle
      have hnil : db.filter (fun r => r.1 == username) = [] := by
        rw [List.filter_eq_nil_iff]
        intro a ha hc
        rw [beq_iff_eq] at hc
        exact hnone a.2 (by rw [← hc]; exact ha)
      rw [hnil]
    rw [hq]
    rfl
  · intro d e hde
    rcases hde with he | hd0
    · obtain ⟨msg, rfl⟩ := Option.isSome_iff_exists.mp he
      cases d <;> rfl
    · subst hd0
      cases e <;> rfl

/-- C9 witness: a one-row store `('alice','s')`: correct secret succeeds
with token `'alice'`. -/
theorem loginUser_spec_witness :
    loginUser "alice" "s" (dbSingle [("alice", "s")] "alice") =
      { success := true, token := some "alice", error := none } :=
  (loginUser_spec "alice" "s" [("alice", "s")] (by decide)).1 "s" (by decide) rfl

/-- C10: along any tick run from `resetGame` that has not reached game
over, `score = 10 * (length - 3)` and
`speed = max 50 (150 - 2 * (length - 3))`; hence the score is a multiple
of 10 and the speed stays within `[50, 150]`. -/
theorem reset_run_score_speed (tape0 : List Point) (tapes : List (List Point)) (u : Bool)
    (st0 st : GameState) (h0 : resetGame tape0 = some st0)
    (hrun : runTicks tapes u st0 = some st) (_hgo : st.isGameOver = false) :
    st.score = 10 * (st.snake.length - 3) ∧
    st.speed = max 50 (150 - 2 * (st.snake.length - 3)) ∧
    10 ∣ st.score ∧ 50 ≤ st.speed ∧ st.speed ≤ 150 := by
  have hinv := runTicks_inv tapes u st0 st hrun (scoreSpeedInv_reset tape0 st0 h0)
  obtain ⟨hlen, hscore, hspeed⟩ := hinv
  simp only [BASE_SPEED, SPEED_INCREMENT] at hspeed
  exact ⟨hscore, hspeed, ⟨_, hscore⟩, by omega, by omega⟩

/-- C10 witness: the freshly reset state (food sampled at `(5,5)`) after a
one-tick run satisfies the score/speed relation. -/
theorem reset_run_score_speed_witness :
    resetGame [⟨5, 5⟩] =
      some ⟨[⟨10, 10⟩, ⟨10, 11⟩, ⟨10, 12⟩], ⟨5, 5⟩, ⟨0, -1⟩, 0, 150, false, false⟩ ∧
    (0 : Nat) = 10 * (3 - 3) ∧ (150 : Nat) = max 50 (150 - 2 * (3 - 3)) := by
  refine ⟨by decide, ?_, ?_⟩
  · exact (reset_run_score_speed [⟨5, 5⟩] [] true
      ⟨[⟨10, 10⟩, ⟨10, 11⟩, ⟨10, 12⟩], ⟨5, 5⟩, ⟨0, -1⟩, 0, 150, false, false⟩
      ⟨[⟨10, 10⟩, ⟨10, 11⟩, ⟨10, 12⟩], ⟨5, 5⟩, ⟨0, -1⟩, 0, 150, false, false⟩
      (by decide) rfl rfl).1
  · decide

end NeonSnake
